import Mathlib

/-!
Verification development for the durable local store of sqs-issue-notifier.

The Go package local_storage persists payloads as files named
"<timestamp>-<sha256 hex>" inside a storage directory, with a sibling
".lock" directory of per-item advisory lock files.  The shallow embedding
below models the storage directory as an association list of
(file name, payload) pairs in walk order, the set of currently held
advisory locks as a list of file names, and the notifier state
(queued count, running flag, forced-wake flag) as an explicit record.
Filesystem faults that the code branches on (TryLock errors, write
errors, traversal errors, remove errors) are supplied as explicit fault
inputs, so that every branch of the source is reachable in the model.
-/

/-- Payloads are byte sequences; bytes are naturals reduced mod 256 where
the code packs them into words. -/
abbrev Bytes := List Nat

/-- File names are character sequences (Go strings over the payload
directory are ASCII here). -/
abbrev Name := List Char

/-! ### SHA-256 (crypto/sha256 + hex.EncodeToString)

The source computes `sha256.Sum256(data)` and hex-encodes it.  The
standard SHA-256 algorithm is embedded below as an executable function on
byte lists; 32-bit machine words are naturals reduced mod 2^32. -/

/-- Reduce a natural to a 32-bit word. -/
def w32 (n : Nat) : Nat := n % 4294967296

/-- Rotate a 32-bit word right by the given number of bits. -/
def rotr32 (x n : Nat) : Nat := w32 ((x >>> n) ||| (x <<< (32 - n)))

/-- Bitwise complement of a 32-bit word. -/
def bnot32 (x : Nat) : Nat := 4294967295 - w32 x

/-- SHA-256 big sigma 0. -/
def bigS0 (x : Nat) : Nat := rotr32 x 2 ^^^ rotr32 x 13 ^^^ rotr32 x 22

/-- SHA-256 big sigma 1. -/
def bigS1 (x : Nat) : Nat := rotr32 x 6 ^^^ rotr32 x 11 ^^^ rotr32 x 25

/-- SHA-256 small sigma 0. -/
def smallS0 (x : Nat) : Nat := rotr32 x 7 ^^^ rotr32 x 18 ^^^ (x >>> 3)

/-- SHA-256 small sigma 1. -/
def smallS1 (x : Nat) : Nat := rotr32 x 17 ^^^ rotr32 x 19 ^^^ (x >>> 10)

/-- SHA-256 choice function. -/
def shaCh (e f g : Nat) : Nat := (e &&& f) ^^^ (bnot32 e &&& g)

/-- SHA-256 majority function. -/
def shaMaj (a b c : Nat) : Nat := (a &&& b) ^^^ (a &&& c) ^^^ (b &&& c)

/-- SHA-256 round constants. -/
def sha256K : List Nat :=
  [1116352408, 1899447441, 3049323471, 3921009573, 961987163, 1508970993,
   2453635748, 2870763221, 3624381080, 310598401, 607225278, 1426881987,
   1925078388, 2162078206, 2614888103, 3248222580, 3835390401, 4022224774,
   264347078, 604807628, 770255983, 1249150122, 1555081692, 1996064986,
   2554220882, 2821834349, 2952996808, 3210313671, 3336571891, 3584528711,
   113926993, 338241895, 666307205, 773529912, 1294757372, 1396182291,
   1695183700, 1986661051, 2177026350, 2456956037, 2730485921, 2820302411,
   3259730800, 3345764771, 3516065817, 3600352804, 4094571909, 275423344,
   430227734, 506948616, 659060556, 883997877, 958139571, 1322822218,
   1537002063, 1747873779, 1955562222, 2024104815, 2227730452, 2361852424,
   2428436474, 2756734187, 3204031479, 3329325298]

/-- SHA-256 initial hash state. -/
def sha256H0 : List Nat :=
  [1779033703, 3144134277, 1013904242, 2773480762,
   1359893119, 2600822924, 528734635, 1541459225]

/-- The big-endian 8-byte encoding of the message bit length. -/
def lenBytes (n : Nat) : List Nat :=
  [n / 2 ^ 56 % 256, n / 2 ^ 48 % 256, n / 2 ^ 40 % 256, n / 2 ^ 32 % 256,
   n / 2 ^ 24 % 256, n / 2 ^ 16 % 256, n / 2 ^ 8 % 256, n % 256]

/-- SHA-256 padding: append 0x80, zero bytes up to 56 mod 64, then the
bit length. -/
def padMsg (msg : List Nat) : List Nat :=
  msg ++ 128 :: List.replicate ((119 - msg.length % 64) % 64) 0 ++ lenBytes (8 * msg.length)

/-- Pack big-endian bytes into 32-bit words. -/
def bytesToWords : List Nat → List Nat
  | b0 :: b1 :: b2 :: b3 :: rest =>
      w32 (b0 * 16777216 + b1 * 65536 + b2 * 256 + b3) :: bytesToWords rest
  | _ => []

/-- The next word of the message schedule, from the words so far. -/
def schedNext (ws : List Nat) : Nat :=
  let n := ws.length
  w32 (ws.getD (n - 16) 0 + smallS0 (ws.getD (n - 15) 0) +
       ws.getD (n - 7) 0 + smallS1 (ws.getD (n - 2) 0))

/-- Extend the message schedule by the given number of words. -/
def schedExt : Nat → List Nat → List Nat
  | 0, ws => ws
  | k + 1, ws => schedExt k (ws ++ [schedNext ws])

/-- One SHA-256 compression round; the state is the eight working
variables. -/
def sha256Step (st : List Nat) (kw : Nat × Nat) : List Nat :=
  match st with
  | [a, b, c, d, e, f, g, h] =>
      let t1 := w32 (h + bigS1 e + shaCh e f g + kw.2 + kw.1)
      let t2 := w32 (bigS0 a + shaMaj a b c)
      [w32 (t1 + t2), a, b, c, w32 (d + t1), e, f, g]
  | st => st

/-- Process the given number of 16-word blocks. -/
def sha256Blocks : Nat → List Nat → List Nat → List Nat
  | 0, h, _ => h
  | k + 1, h, words =>
      let sched := schedExt 48 (words.take 16)
      let st := (sched.zip sha256K).foldl sha256Step h
      sha256Blocks k ((h.zip st).map fun p => w32 (p.1 + p.2)) (words.drop 16)

/-- The big-endian bytes of a 32-bit word. -/
def wordBytes (w : Nat) : List Nat :=
  [w / 2 ^ 24 % 256, w / 2 ^ 16 % 256, w / 2 ^ 8 % 256, w % 256]

/-- SHA-256 digest of a byte sequence, as 32 bytes. -/
def sha256 (msg : List Nat) : List Nat :=
  let words := bytesToWords (padMsg msg)
  (sha256Blocks (words.length / 16) sha256H0 words).foldr (fun w acc => wordBytes w ++ acc) []

/-- The lowercase hex digit for a value below 16. -/
def hexDigit (n : Nat) : Char :=
  if n < 10 then Char.ofNat (48 + n) else Char.ofNat (87 + n)

/-- The function `hex.EncodeToString(sha256.Sum256(data)[:])`: the lowercase hex
encoding of the SHA-256 digest. -/
def hashHex (data : Bytes) : List Char :=
  (sha256 data).foldr (fun b acc => hexDigit (b / 16 % 16) :: hexDigit (b % 16) :: acc) []

/-! ### File names -/

/-- The format of the time used in file names (source constant
`time_format`); its length fixes the offset at which the hash segment of
a file name starts. -/
def time_format : List Char := "2006-01-02-15-04-05-".toList

/-- Fixed-width decimal digits of a natural, least significant first. -/
def digitsRev : Nat → Nat → List Char
  | 0, _ => []
  | k + 1, n => hexDigit (n % 10) :: digitsRev k (n / 10)

/-- The prefix `time.Now().Format(time_format)`: modelled as a fixed-width
20-character string determined by the wall-clock second `now`, ending in
a dash, matching the length of `time_format` exactly as the Go layout
does.  Only its determinism in `now` and its fixed length are used by
the store. -/
def timeFmt (now : Nat) : List Char := (digitsRev 19 now).reverse ++ ['-']

/-- The file name `"<time>-<hash>"` that `Store` builds for payload
`data` at second `now`. -/
def storeFilename (now : Nat) (data : Bytes) : Name := timeFmt now ++ hashHex data

/-! ### Store state and error codes -/

/-- The error codes of package local_storage (error.go). -/
inductive ErrCode where
  | errStoreLockFailed
  | errDuplicatedStore
  | errStoreFailed
  | errGetLockFailed
  | errGetFailed
  | errGetEmpty
  | errRemoveFailed
  | errTimedOut
  | errStoreClosed
deriving DecidableEq, Repr

/-- The notifier: events and synchronization between the store and nodes
(fields `queued`, `run`, `forceWake`; the condition variable and timer
are modelled by explicit wake events and signal counts). -/
structure notifier where
  queued : Nat
  run : Bool
  forceWake : Bool
deriving DecidableEq, Repr

/-- The observable state of an `fsStore`: the payload directory contents
in walk order, the currently held advisory locks (keyed by file name, as
the lock files live under `.lock`), and the notifier. -/
structure fsStore where
  files : List (Name × Bytes)
  locks : List Name
  wait : notifier
deriving DecidableEq, Repr

/-- Filesystem faults `Store` branches on: none, a `TryLock` error, or a
`WriteFile` error. -/
inductive StoreFault where
  | ok
  | lockErr
  | writeErr
deriving DecidableEq, Repr

/-- The outcome of one `Store` call: its error result (`none` is
success), the resulting store state, and how many times `cond.Signal`
was called. -/
structure StoreResult where
  res : Option ErrCode
  st : fsStore
  signals : Nat
deriving DecidableEq, Repr

/-- Method `fsStore.Store`: build the name `"<time>-<hash>"`, try the advisory
lock non-blockingly (an OS error yields `ErrStoreLockFailed`; the lock
already held yields `ErrDuplicatedStore`), reject the write if a data
file of that name already exists (`ErrDuplicatedStore`), write the
payload (a write error yields `ErrStoreFailed`), then increment `queued`
and signal one waiter.  The lock taken here is released again before
returning (the deferred unlock), so the lock set is unchanged in every
outcome. -/
def fsStore.Store (f : fsStore) (now : Nat) (data : Bytes) (fault : StoreFault) : StoreResult :=
  let filename := timeFmt now ++ hashHex data
  if fault = StoreFault.lockErr then
    ⟨some ErrCode.errStoreLockFailed, f, 0⟩
  else if filename ∈ f.locks then
    ⟨some ErrCode.errDuplicatedStore, f, 0⟩
  else if filename ∈ f.files.map Prod.fst then
    ⟨some ErrCode.errDuplicatedStore, f, 0⟩
  else if fault = StoreFault.writeErr then
    ⟨some ErrCode.errStoreFailed, f, 0⟩
  else
    ⟨none,
     { f with files := f.files ++ [(filename, data)],
              wait := { f.wait with queued := f.wait.queued + 1 } },
     1⟩

/-- Filesystem faults `Get` branches on: none, the directory cannot be
traversed, or the non-blocking lock attempt on the named file errors. -/
inductive GetFault where
  | ok
  | dirErr
  | lockErrOn (name : Name)
deriving DecidableEq, Repr

/-- The outcome of the directory walk inside `Get`: the first claimable
valid file, no match, or an error aborting the walk. -/
inductive WalkOut where
  | found (name : Name) (data : Bytes)
  | empty
  | aborted (e : ErrCode)
deriving DecidableEq, Repr

/-- The walk callback of `fsStore.Get`, folded over the payload
directory: an erroring lock attempt aborts the walk with
`ErrGetLockFailed`; an already-held lock skips the file; a file name
shorter than the time prefix is invalid and skipped; a file whose
recomputed hash differs from the hash segment of its name is corrupted
and skipped (its lock released); otherwise the file is claimed and the
walk stops. -/
def getWalk (locks : List Name) (fault : GetFault) : List (Name × Bytes) → WalkOut
  | [] => WalkOut.empty
  | (name, contents) :: rest =>
    if fault = GetFault.lockErrOn name then
      WalkOut.aborted ErrCode.errGetLockFailed
    else if name ∈ locks then
      getWalk locks fault rest
    else if name.length < time_format.length then
      getWalk locks fault rest
    else if hashHex contents ≠ name.drop time_format.length then
      getWalk locks fault rest
    else
      WalkOut.found name contents

/-- Structure `fsData`: one retrieved item, holding the file contents and the path
of the file whose lock it owns. -/
structure fsData where
  data : Bytes
  file_path : Name
deriving DecidableEq, Repr

/-- Method `fsStore.Get`: walk the payload directory; any error returned by the
walk (a traversal failure, or the walk callback aborting with
`ErrGetLockFailed`) is reported as `ErrGetFailed`; an empty result is
`ErrGetEmpty`; on success the claimed file keeps its lock held and a
handle is returned. -/
def fsStore.Get (f : fsStore) (fault : GetFault) : Except ErrCode (fsData × fsStore) :=
  if fault = GetFault.dirErr then
    Except.error ErrCode.errGetFailed
  else
    match getWalk f.locks fault f.files with
    | WalkOut.aborted _ => Except.error ErrCode.errGetFailed
    | WalkOut.empty => Except.error ErrCode.errGetEmpty
    | WalkOut.found name contents =>
        Except.ok (⟨contents, name⟩, { f with locks := name :: f.locks })

/-- Method `fsData.Bytes`: a copy of the contents, built by appending to a
fresh empty buffer. -/
def fsData.Bytes (fd : fsData) : Bytes := [] ++ fd.data

/-- Filesystem faults `Remove` branches on: none, or the payload file
cannot be removed. -/
inductive RemoveFault where
  | ok
  | removeErr
deriving DecidableEq, Repr

/-- Method `fsData.Remove`: delete the payload file (failure yields
`ErrRemoveFailed` and leaves the lock held), release and delete the lock
file (a failure deleting the lock file is only logged), and decrement
`queued`, floored at zero. -/
def fsData.Remove (fd : fsData) (f : fsStore) (fault : RemoveFault) : Option ErrCode × fsStore :=
  if fault = RemoveFault.removeErr then
    (some ErrCode.errRemoveFailed, f)
  else
    (none,
     { files := f.files.eraseP (fun e => e.1 == fd.file_path),
       locks := f.locks.erase fd.file_path,
       wait := { f.wait with
                 queued := if f.wait.queued > 0 then f.wait.queued - 1 else f.wait.queued } })

/-- Method `fsData.Close`: release the lock without deleting anything, so the
item becomes retrievable again. -/
def fsData.Close (fd : fsData) (f : fsStore) : fsStore :=
  { f with locks := f.locks.erase fd.file_path }

/-- The condition under which a `Wait` call blocks on the condition
variable: nothing queued, still running, and no forced wake pending. -/
def waitBlocks (n : notifier) : Bool := n.queued == 0 && n.run && !n.forceWake

/-- Method `fsStore.Wait`, evaluated once the wait loop exits (when
`waitBlocks` is false): a pending forced wake is consumed first and
yields `ErrTimedOut`; otherwise a stopped store yields `ErrStoreClosed`;
otherwise the wait succeeded (`nil`). -/
def fsStore.Wait (f : fsStore) : Option ErrCode × fsStore :=
  if f.wait.forceWake then
    (some ErrCode.errTimedOut, { f with wait := { f.wait with forceWake := false } })
  else if f.wait.run = false then
    (some ErrCode.errStoreClosed, f)
  else
    (none, f)

/-- Method `fsStore.Close`: clear `run`, stop the timer, and signal one waiter
(`cond.Signal`); returns nil unconditionally. -/
def fsStore.Close (f : fsStore) : fsStore × Nat :=
  ({ f with wait := { f.wait with run := false } }, 1)

/-- One firing of the background timer goroutine in `NewFS`: under the
lock, set `forceWake` only when nothing is queued, then signal once
(unconditionally). -/
def timerFire (f : fsStore) : fsStore × Nat :=
  (if f.wait.queued = 0 then { f with wait := { f.wait with forceWake := true } } else f, 1)

/-- Constructor `NewFS`: clear and recreate the lock directory (so no lock is held),
seed `queued` by counting the files already present in the payload
directory (the `.lock` subdirectory is skipped by the walk), and start
running. -/
def NewFS (existing : List (Name × Bytes)) : fsStore :=
  { files := existing,
    locks := [],
    wait := { queued := existing.length, run := true, forceWake := false } }

/-- Modelled from the spec: the method `fsStore.Count` is absent from
the available sources (only its callers appear: the tests and
`server.GetMessage`); per the spec it returns the current pending count
read under the shared lock. -/
def fsStore.Count (f : fsStore) : Nat := f.wait.queued

/-! ### Relay loop (startStorage in main.go) -/

/-- The calls the relay loop makes on a retrieved handle. -/
inductive RelayCall where
  | callClose
  | callRemove
deriving DecidableEq, Repr

/-- One iteration of the relay loop in `startStorage`, as the sequence
of handle calls it performs: a `Wait` returning `ErrStoreClosed` ends
the loop; any other `Wait` error except `ErrTimedOut` skips the
iteration; a failed `Get` skips the iteration; a failed send closes the
handle; a successful send removes it, falling back to a close when the
removal fails. -/
def relayIteration (waitErr getErr : Option ErrCode) (sendOk removeOk : Bool) : List RelayCall :=
  if waitErr = some ErrCode.errStoreClosed then []
  else if waitErr ≠ none ∧ waitErr ≠ some ErrCode.errTimedOut then []
  else
    match getErr with
    | some _ => []
    | none =>
        if sendOk = false then [RelayCall.callClose]
        else if removeOk then [RelayCall.callRemove]
        else [RelayCall.callRemove, RelayCall.callClose]

/-! ### Derived definitions used by the claims -/

/-- A directory entry is valid when its name is at least as long as the
time prefix and its hash segment matches its contents; every file
written by `Store` is valid. -/
def entryValid (e : Name × Bytes) : Prop :=
  time_format.length ≤ e.1.length ∧ e.1.drop time_format.length = hashHex e.2

instance entryValidDec (e : Name × Bytes) : Decidable (entryValid e) :=
  inferInstanceAs (Decidable (_ ∧ _))

/-- Repeatedly `Get` then `Remove`, collecting the retrieved payloads;
stops at the first error. -/
def drainData : Nat → fsStore → List Bytes
  | 0, _ => []
  | k + 1, f =>
    match f.Get GetFault.ok with
    | Except.error _ => []
    | Except.ok (fd, f2) => fd.Bytes :: drainData k (fd.Remove f2 RemoveFault.ok).2

/-- The store state right after a successful `Store` of `msg` at second
`now` into a store over an empty directory. -/
def storedState (now : Nat) (msg : Bytes) : fsStore :=
  { files := [(storeFilename now msg, msg)],
    locks := [],
    wait := { queued := 1, run := true, forceWake := false } }

/-! ### Helper lemmas -/

theorem digitsRev_length (k : Nat) : ∀ n, (digitsRev k n).length = k := by
  induction k with
  | zero => intro n; rfl
  | succ k ih => intro n; simp [digitsRev, ih]

theorem timeFmt_length (now : Nat) : (timeFmt now).length = time_format.length := by
  simp [timeFmt, time_format, digitsRev_length]

theorem storeFilename_drop (now : Nat) (data : Bytes) :
    (storeFilename now data).drop time_format.length = hashHex data := by
  rw [storeFilename, ← timeFmt_length now, List.drop_left]

theorem storeFilename_le_length (now : Nat) (data : Bytes) :
    time_format.length ≤ (storeFilename now data).length := by
  rw [storeFilename, List.length_append, ← timeFmt_length now]
  omega

theorem storeFilename_valid (now : Nat) (data : Bytes) :
    entryValid (storeFilename now data, data) :=
  ⟨storeFilename_le_length now data, storeFilename_drop now data⟩

theorem getWalk_cons_found (locks : List Name) (n : Name) (c : Bytes)
    (rest : List (Name × Bytes)) (h1 : n ∉ locks) (h2 : entryValid (n, c)) :
    getWalk locks GetFault.ok ((n, c) :: rest) = WalkOut.found n c := by
  obtain ⟨hlen, hdrop⟩ := h2
  simp only [getWalk]
  rw [if_neg (by simp), if_neg (by simpa using h1), if_neg (Nat.not_lt.mpr hlen),
    if_neg (by simp only [not_not]; exact hdrop.symm)]

theorem getWalk_cons_skip (locks : List Name) (fault : GetFault) (n : Name) (c : Bytes)
    (rest : List (Name × Bytes)) (hf : fault ≠ GetFault.lockErrOn n) (h : n ∈ locks) :
    getWalk locks fault ((n, c) :: rest) = getWalk locks fault rest := by
  simp only [getWalk]
  rw [if_neg hf, if_pos h]

theorem Get_found (f : fsStore) (n : Name) (c : Bytes) (rest : List (Name × Bytes))
    (hf : f.files = (n, c) :: rest) (h1 : n ∉ f.locks) (h2 : entryValid (n, c)) :
    f.Get GetFault.ok = Except.ok (⟨c, n⟩, { f with locks := n :: f.locks }) := by
  rw [fsStore.Get, if_neg (by simp), hf, getWalk_cons_found f.locks n c rest h1 h2]

theorem Store_empty (now : Nat) (msg : Bytes) :
    (NewFS []).Store now msg StoreFault.ok = ⟨none, storedState now msg, 1⟩ := by
  rw [fsStore.Store]
  simp [NewFS, storedState, storeFilename]

theorem Get_empty_nil (f : fsStore) (h : f.files = []) :
    f.Get GetFault.ok = Except.error ErrCode.errGetEmpty := by
  rw [fsStore.Get, if_neg (by simp), h]
  rfl

theorem Get_single_locked (f : fsStore) (n : Name) (c : Bytes)
    (hf : f.files = [(n, c)]) (h : n ∈ f.locks) :
    f.Get GetFault.ok = Except.error ErrCode.errGetEmpty := by
  rw [fsStore.Get, if_neg (by simp), hf, getWalk_cons_skip _ _ _ _ _ (by simp) h]
  rfl

/-! ### Claims -/

/-- C1: on a store over a directory with no other items, a successful
`Store(msg)` followed by `Get()` returns a handle (not an error) whose
`Bytes()` equals `msg` byte for byte, and `Get` is non-destructive: the
payload directory is unchanged by it. -/
theorem c1_round_trip (now : Nat) (msg : Bytes) :
    ∃ fd f2,
      ((NewFS []).Store now msg StoreFault.ok).res = none ∧
      ((NewFS []).Store now msg StoreFault.ok).st.Get GetFault.ok = Except.ok (fd, f2) ∧
      fd.Bytes = msg ∧
      f2.files = ((NewFS []).Store now msg StoreFault.ok).st.files := by
  rw [Store_empty]
  refine ⟨⟨msg, storeFilename now msg⟩,
    { storedState now msg with locks := [storeFilename now msg] },
    rfl, ?_, by simp [fsData.Bytes], rfl⟩
  exact Get_found (storedState now msg) (storeFilename now msg) msg [] rfl
    (by simp [storedState]) (storeFilename_valid now msg)

/-- C2: storing identical bytes twice within the same second builds the
same file name and the second call returns `ErrDuplicatedStore`, both
when the write lock of an in-flight identical `Store` is still held and
when the data file of that name already exists; the pending count still
reports 1. -/
theorem c2_duplicate (now : Nat) (msg : Bytes) :
    (∀ f : fsStore, storeFilename now msg ∈ f.locks →
        f.Store now msg StoreFault.ok = ⟨some ErrCode.errDuplicatedStore, f, 0⟩) ∧
    ((NewFS []).Store now msg StoreFault.ok).res = none ∧
    ((NewFS []).Store now msg StoreFault.ok).st.Store now msg StoreFault.ok =
      ⟨some ErrCode.errDuplicatedStore, ((NewFS []).Store now msg StoreFault.ok).st, 0⟩ ∧
    (((NewFS []).Store now msg StoreFault.ok).st.Store now msg StoreFault.ok).st.Count = 1 := by
  refine ⟨fun f h => ?_, ?_, ?_, ?_⟩
  · rw [fsStore.Store]
    simp only [storeFilename] at h
    simp only [if_neg (by simp : ¬StoreFault.ok = StoreFault.lockErr)]
    rw [if_pos h]
  · rw [Store_empty]
  · rw [Store_empty, fsStore.Store]
    simp [storedState, storeFilename, fsStore.Count]
  · rw [Store_empty, fsStore.Store]
    simp [storedState, storeFilename, fsStore.Count]

/-- C2 witness: the lock-held branch at a concrete mid-write state, and
the pending count after a concrete duplicated store. -/
theorem c2_duplicate_witness :
    (fsStore.mk [] [storeFilename 0 []] ⟨0, true, false⟩).Store 0 [] StoreFault.ok =
      ⟨some ErrCode.errDuplicatedStore, fsStore.mk [] [storeFilename 0 []] ⟨0, true, false⟩, 0⟩ ∧
    (((NewFS []).Store 0 [] StoreFault.ok).st.Store 0 [] StoreFault.ok).st.Count = 1 :=
  ⟨(c2_duplicate 0 []).1 _ (List.mem_cons_self _ _), (c2_duplicate 0 []).2.2.2⟩

/-- C3: while the handle from `Get()` is open, a second `Get()` on a
store whose only item is the claimed one returns `ErrGetEmpty`; after
the handle is closed the item is retrievable again with the same bytes;
after the handle is removed the store is empty. -/
theorem c3_exclusivity (now : Nat) (msg : Bytes) :
    ∃ fd f2,
      ((NewFS []).Store now msg StoreFault.ok).st.Get GetFault.ok = Except.ok (fd, f2) ∧
      fd.Bytes = msg ∧
      f2.Get GetFault.ok = Except.error ErrCode.errGetEmpty ∧
      (∃ fd2 f3, (fd.Close f2).Get GetFault.ok = Except.ok (fd2, f3) ∧ fd2.Bytes = msg) ∧
      (fd.Remove f2 RemoveFault.ok).2.Get GetFault.ok = Except.error ErrCode.errGetEmpty := by
  rw [Store_empty]
  refine ⟨⟨msg, storeFilename now msg⟩,
    fsStore.mk [(storeFilename now msg, msg)] [storeFilename now msg] ⟨1, true, false⟩,
    ?_, by simp [fsData.Bytes], ?_, ?_, ?_⟩
  · exact Get_found (storedState now msg) (storeFilename now msg) msg [] rfl
      (by simp [storedState]) (storeFilename_valid now msg)
  · exact Get_single_locked _ (storeFilename now msg) msg rfl (by simp)
  · exact ⟨⟨msg, storeFilename now msg⟩, _,
      Get_found _ (storeFilename now msg) msg [] (by simp [fsData.Close])
        (by simp [fsData.Close, List.erase_cons_head]) (storeFilename_valid now msg),
      by simp [fsData.Bytes]⟩
  · exact Get_empty_nil _ (by simp [fsData.Remove, List.eraseP_cons_of_pos])

theorem drain_valid (files : List (Name × Bytes)) :
    ∀ n : notifier, (∀ e ∈ files, entryValid e) →
      drainData files.length ⟨files, [], n⟩ = files.map Prod.snd := by
  induction files with
  | nil => intro n _; rfl
  | cons e rest ih =>
    intro n h
    obtain ⟨nm, c⟩ := e
    have hget := Get_found ⟨(nm, c) :: rest, [], n⟩ nm c rest rfl (by simp)
      (h _ (by simp))
    rw [List.length_cons, drainData, hget]
    simp only [fsData.Remove, fsData.Bytes, List.nil_append]
    rw [if_neg (by simp)]
    have he : List.eraseP (fun e => e.1 == nm) ((nm, c) :: rest) = rest := by
      rw [List.eraseP_cons]
      simp
    simp only [he, List.erase_cons_head, List.map_cons]
    rw [ih _ (fun e he2 => h e (List.mem_cons_of_mem _ he2))]

/-- C4: constructing a store over a directory already holding N payload
files (each named by the timestamp-hash scheme of a previous store
instance) seeds the pending count to exactly N before any `Get`, and
draining the store by N `Get`/`Remove` rounds retrieves every item with
its original content. -/
theorem c4_crash_recovery (files : List (Name × Bytes)) (h : ∀ e ∈ files, entryValid e) :
    (NewFS files).Count = files.length ∧
    drainData files.length (NewFS files) = files.map Prod.snd :=
  ⟨rfl, drain_valid files ⟨files.length, true, false⟩ h⟩

/-- A concrete two-item directory written by a previous instance. -/
def files0 : List (Name × Bytes) :=
  [(storeFilename 0 [1], [1]), (storeFilename 5 [2], [2])]

/-- C4 witness: recovery over the concrete directory `files0`. -/
theorem c4_crash_recovery_witness :
    (NewFS files0).Count = files0.length ∧
    drainData files0.length (NewFS files0) = files0.map Prod.snd :=
  c4_crash_recovery files0 (by
    intro e he
    simp only [files0, List.mem_cons, List.not_mem_nil, or_false] at he
    rcases he with h | h <;> rw [h] <;> exact storeFilename_valid _ _)

/-- C5 counterexample: on an empty open store the timer fires (setting
the forced-wake flag), then `Close()` runs; the next `Wait()` call
returns `ErrTimedOut`, not `ErrStoreClosed`, because `Wait` consumes a
pending forced wake before checking the running flag. -/
theorem c5_closed_counterexample :
    ((fsStore.Close (timerFire (NewFS [])).1).1.Wait).1 = some ErrCode.errTimedOut ∧
    ((fsStore.Close (timerFire (NewFS [])).1).1.Wait).1 ≠ some ErrCode.errStoreClosed := by
  decide

/-- C5 amended: after `Close()` no `Wait` blocks and none returns `Ok`;
every `Wait` returns `ErrStoreClosed` unless a forced wake set by the
timer is still pending, in which case that one `Wait` returns
`ErrTimedOut` (consuming the flag) and the next `Wait` returns
`ErrStoreClosed`. -/
theorem c5_closed_amended (f : fsStore) (h : f.wait.run = false) :
    waitBlocks f.wait = false ∧
    f.Wait.1 ≠ none ∧
    (f.wait.forceWake = false → f.Wait.1 = some ErrCode.errStoreClosed) ∧
    (f.wait.forceWake = true →
      f.Wait.1 = some ErrCode.errTimedOut ∧ (f.Wait.2).Wait.1 = some ErrCode.errStoreClosed) := by
  refine ⟨by simp [waitBlocks, h], ?_, ?_, ?_⟩
  · rw [fsStore.Wait]
    split <;> simp_all
  · intro hw
    rw [fsStore.Wait, if_neg (by simp [hw]), if_pos h]
  · intro hw
    rw [fsStore.Wait, if_pos hw]
    refine ⟨rfl, ?_⟩
    rw [fsStore.Wait]
    simp [h]

/-- C5 witness: the amended behaviour at the concrete closed store of
the counterexample scenario. -/
theorem c5_closed_amended_witness :
    waitBlocks (fsStore.Close (timerFire (NewFS [])).1).1.wait = false ∧
    ((fsStore.Close (timerFire (NewFS [])).1).1.Wait).1 ≠ none ∧
    ((fsStore.Close (timerFire (NewFS [])).1).1.wait.forceWake = false →
      ((fsStore.Close (timerFire (NewFS [])).1).1.Wait).1 = some ErrCode.errStoreClosed) ∧
    ((fsStore.Close (timerFire (NewFS [])).1).1.wait.forceWake = true →
      ((fsStore.Close (timerFire (NewFS [])).1).1.Wait).1 = some ErrCode.errTimedOut ∧
      (((fsStore.Close (timerFire (NewFS [])).1).1.Wait).2.Wait).1 = some ErrCode.errStoreClosed) :=
  c5_closed_amended (fsStore.Close (timerFire (NewFS [])).1).1 (by decide)

/-- C6 counterexample: the timer fires on an empty open store (setting
the forced wake), then a `Store` succeeds; the following `Wait` runs on
an open store whose pending count is 1 yet returns `ErrTimedOut`, not
`Ok`. -/
theorem c6_wait_counterexample :
    ((timerFire (NewFS [])).1.Store 0 [0] StoreFault.ok).st.Count = 1 ∧
    ((timerFire (NewFS [])).1.Store 0 [0] StoreFault.ok).st.wait.run = true ∧
    (((timerFire (NewFS [])).1.Store 0 [0] StoreFault.ok).st.Wait).1 =
      some ErrCode.errTimedOut := by
  decide

/-- C6 amended: `Wait` returns `ErrTimedOut` exactly when the forced
wake flag is set when it runs; the timer sets that flag only while the
pending count is zero; and on an open store with a positive pending
count and no pending forced wake, `Wait` returns `Ok` (nil).  A `Store`
between the timer firing and the `Wait` can therefore leave `Wait`
returning `ErrTimedOut` with a positive pending count. -/
theorem c6_wait_amended (f : fsStore) :
    (f.wait.queued ≠ 0 → timerFire f = (f, 1)) ∧
    (f.wait.queued = 0 → (timerFire f).1.wait.forceWake = true) ∧
    (f.wait.forceWake = false → f.wait.run = true → 0 < f.wait.queued → f.Wait.1 = none) ∧
    (f.Wait.1 = some ErrCode.errTimedOut → f.wait.forceWake = true) := by
  refine ⟨fun h => ?_, fun h => ?_, fun h1 h2 _ => ?_, fun h => ?_⟩
  · rw [timerFire, if_neg h]
  · rw [timerFire, if_pos h]
  · rw [fsStore.Wait, if_neg (by simp [h1]), if_neg (by simp [h2])]
  · by_contra hc
    rw [fsStore.Wait, if_neg (by simpa using hc)] at h
    split at h <;> simp_all

/-- C6 witness: the amended behaviour at the concrete store of the
counterexample scenario. -/
theorem c6_wait_amended_witness :
    (((timerFire (NewFS [])).1.Store 0 [0] StoreFault.ok).st.Wait).1 =
        some ErrCode.errTimedOut →
      ((timerFire (NewFS [])).1.Store 0 [0] StoreFault.ok).st.wait.forceWake = true :=
  (c6_wait_amended ((timerFire (NewFS [])).1.Store 0 [0] StoreFault.ok).st).2.2.2

/-- C7: in any relay iteration that reaches the delivery stage, a failed
send closes the handle and never removes it; a successful send removes
it, and when the removal fails the handle is closed as a fallback. -/
theorem c7_relay_policy (waitErr : Option ErrCode) (removeOk : Bool)
    (hw : waitErr = none ∨ waitErr = some ErrCode.errTimedOut) :
    relayIteration waitErr none false removeOk = [RelayCall.callClose] ∧
    RelayCall.callRemove ∉ relayIteration waitErr none false removeOk ∧
    relayIteration waitErr none true true = [RelayCall.callRemove] ∧
    relayIteration waitErr none true false = [RelayCall.callRemove, RelayCall.callClose] ∧
    RelayCall.callClose ∉ relayIteration waitErr none true true := by
  rcases hw with h | h <;> subst h <;> simp [relayIteration]

/-- C7 witness: the redelivery policy at a concrete successful wait. -/
theorem c7_relay_policy_witness :
    relayIteration none none false true = [RelayCall.callClose] ∧
    RelayCall.callRemove ∉ relayIteration none none false true ∧
    relayIteration none none true true = [RelayCall.callRemove] ∧
    relayIteration none none true false = [RelayCall.callRemove, RelayCall.callClose] ∧
    RelayCall.callClose ∉ relayIteration none none true true :=
  c7_relay_policy none true (Or.inl rfl)

/-- C8: `Count()` returns the current pending count of the notifier
state, and on a freshly constructed store it equals the number of files
found in the payload directory. -/
theorem c8_count (f : fsStore) :
    f.Count = f.wait.queued ∧ (NewFS f.files).Count = f.files.length :=
  ⟨rfl, rfl⟩

/-- A concrete store holding one unclaimed file, used to exercise the
`Get` fault paths. -/
def c9Store : fsStore := ⟨[(['a'], [])], [], ⟨1, true, false⟩⟩

/-- C9 counterexample: when the non-blocking lock attempt on a scanned
file fails with an error, `Get` returns `ErrGetFailed`, not
`ErrGetLockFailed` as the claim states: the walk callback's
`ErrGetLockFailed` aborts the traversal and the traversal error is
converted to `ErrGetFailed`. -/
theorem c9_get_counterexample :
    c9Store.Get (GetFault.lockErrOn ['a']) = Except.error ErrCode.errGetFailed ∧
    c9Store.Get (GetFault.lockErrOn ['a']) ≠ Except.error ErrCode.errGetLockFailed := by
  refine ⟨rfl, ?_⟩
  simp [show c9Store.Get (GetFault.lockErrOn ['a']) = Except.error ErrCode.errGetFailed from rfl]

/-- C9 amended: `Get` never surfaces `ErrGetLockFailed`; it returns
`ErrGetFailed` both when the directory cannot be traversed and when a
lock attempt errors during the scan (the walk aborts and the error is
coarsened to `ErrGetFailed`). -/
theorem c9_get_amended :
    (∀ (f : fsStore) (fault : GetFault), f.Get fault ≠ Except.error ErrCode.errGetLockFailed) ∧
    (∀ f : fsStore, f.Get GetFault.dirErr = Except.error ErrCode.errGetFailed) ∧
    (∀ (f : fsStore) (n : Name) (c : Bytes) (rest : List (Name × Bytes)),
      f.files = (n, c) :: rest →
      f.Get (GetFault.lockErrOn n) = Except.error ErrCode.errGetFailed) := by
  refine ⟨fun f fault => ?_, fun f => ?_, fun f n c rest hf => ?_⟩
  · rw [fsStore.Get]
    split
    · simp
    · split <;> simp
  · rw [fsStore.Get, if_pos rfl]
  · rw [fsStore.Get, if_neg (by simp), hf]
    simp [getWalk]

/-- C9 witness: the amended error surface at the concrete store
`c9Store`. -/
theorem c9_get_amended_witness :
    c9Store.Get (GetFault.lockErrOn ['a']) = Except.error ErrCode.errGetFailed :=
  c9_get_amended.2.2 c9Store ['a'] [] [] rfl

/-- C10: whenever `Store` returns an error the store state is unchanged
and no waiter is signaled, and the error is one of
`ErrDuplicatedStore`, `ErrStoreLockFailed`, `ErrStoreFailed`; exactly on
success the pending count is incremented by one and one waiter is
signaled, with the rest of the notifier untouched. -/
theorem c10_store_atomicity (f : fsStore) (now : Nat) (data : Bytes) (fault : StoreFault) :
    ((f.Store now data fault).res = none →
      (f.Store now data fault).st.wait.queued = f.wait.queued + 1 ∧
      (f.Store now data fault).signals = 1 ∧
      (f.Store now data fault).st.wait.run = f.wait.run ∧
      (f.Store now data fault).st.wait.forceWake = f.wait.forceWake ∧
      (f.Store now data fault).st.locks = f.locks) ∧
    (∀ e, (f.Store now data fault).res = some e →
      (f.Store now data fault).st = f ∧
      (f.Store now data fault).signals = 0 ∧
      (e = ErrCode.errDuplicatedStore ∨ e = ErrCode.errStoreLockFailed ∨
        e = ErrCode.errStoreFailed)) := by
  simp only [fsStore.Store]
  split
  · simp
  split
  · simp
  split
  · simp
  split
  · simp
  · simp

/-- C10 witness: a concrete failing store leaves the state untouched
with no signal, and a concrete successful store increments the count. -/
theorem c10_store_atomicity_witness :
    (((NewFS []).Store 0 [] StoreFault.lockErr).st = NewFS [] ∧
      ((NewFS []).Store 0 [] StoreFault.lockErr).signals = 0 ∧
      (ErrCode.errStoreLockFailed = ErrCode.errDuplicatedStore ∨
        ErrCode.errStoreLockFailed = ErrCode.errStoreLockFailed ∨
        ErrCode.errStoreLockFailed = ErrCode.errStoreFailed)) ∧
    ((NewFS []).Store 0 [] StoreFault.ok).st.wait.queued = (NewFS []).wait.queued + 1 := by
  refine ⟨(c10_store_atomicity (NewFS []) 0 [] StoreFault.lockErr).2
    ErrCode.errStoreLockFailed rfl, ?_⟩
  exact ((c10_store_atomicity (NewFS []) 0 [] StoreFault.ok).1 (by rw [Store_empty])).1
